import Mathlib

/-!
Verification of the configuration loader/validator/generator of the
`invoke_tasks.infra.infra_config` module.

The Python module is shallowly embedded: Python dicts become insertion-ordered
association lists, Python sets become deduplicated lists (with a fixed
first-occurrence iteration order where the source interpolates a set into a
message), the filesystem becomes an explicit read-only view (`Fs`) plus an
explicit list of written files, and raised exceptions become `Except String`
results carrying the exact message text.  String characters are compared by
code point; `upper`/`lower`/`\w`/`\s` are modelled at ASCII range, matching the
ASCII inputs the module handles.  Literal `\x7b`, `\x7d` and `\x27` escapes
denote braces and apostrophes inside string literals.
-/

/-! ### String utilities -/

/-- Python's `sep.join(xs)`. -/
def strJoin (sep : String) : List String → String
  | [] => ""
  | [x] => x
  | x :: y :: rest => x ++ sep ++ strJoin sep (y :: rest)

/-- Concatenation of a list of strings. -/
def strConcat : List String → String
  | [] => ""
  | x :: rest => x ++ strConcat rest

/-- The substring relation: `needle` occurs contiguously inside `hay`. -/
def strContains (hay needle : String) : Prop :=
  ∃ a b, hay.data = a ++ needle.data ++ b

theorem strContains_mid (a n b : String) : strContains (a ++ n ++ b) n :=
  ⟨a.data, b.data, by simp [String.data_append]⟩

theorem strContains_last (a n : String) : strContains (a ++ n) n :=
  ⟨a.data, [], by simp [String.data_append]⟩

theorem strContains_appL (a : String) {b n : String} (h : strContains b n) :
    strContains (a ++ b) n := by
  obtain ⟨x, y, hxy⟩ := h
  exact ⟨a.data ++ x, y, by simp [String.data_append, hxy]⟩

theorem strContains_appR (b : String) {a n : String} (h : strContains a n) :
    strContains (a ++ b) n := by
  obtain ⟨x, y, hxy⟩ := h
  exact ⟨x, y ++ b.data, by simp [String.data_append, hxy]⟩

theorem mem_strJoin_contains (sep : String) {xs : List String} {x : String}
    (hx : x ∈ xs) : strContains (strJoin sep xs) x := by
  induction xs with
  | nil => cases hx
  | cons y rest ih =>
    rcases List.mem_cons.mp hx with h | h
    · subst h
      cases rest with
      | nil => exact ⟨[], [], by simp [strJoin]⟩
      | cons z zs => exact strContains_appR _ (strContains_appR _ ⟨[], [], by simp⟩)
    · cases rest with
      | nil => cases h
      | cons z zs =>
        show strContains (y ++ sep ++ strJoin sep (z :: zs)) x
        exact strContains_appL _ (ih h)

/-! ### String ordering (Python `sorted`, lexicographic by code point) -/

/-- Lexicographic comparison on code-point lists. -/
def natListLeB : List Nat → List Nat → Bool
  | [], _ => true
  | _ :: _, [] => false
  | a :: as, b :: bs => if a < b then true else if b < a then false else natListLeB as bs

/-- Python's `<=` on strings: lexicographic by code point. -/
def strLeB (a b : String) : Bool :=
  natListLeB (a.data.map Char.toNat) (b.data.map Char.toNat)

/-- The ordering relation used to state sortedness of `sorted(...)` output. -/
def strLeP (a b : String) : Prop := strLeB a b = true

instance : DecidableRel strLeP := fun a b => by unfold strLeP; infer_instance

theorem natListLeB_total (x y : List Nat) : natListLeB x y = true ∨ natListLeB y x = true := by
  induction x generalizing y with
  | nil => exact Or.inl rfl
  | cons a as ih =>
    cases y with
    | nil => exact Or.inr rfl
    | cons b bs =>
      by_cases hab : a < b
      · exact Or.inl (by simp [natListLeB, hab])
      · by_cases hba : b < a
        · exact Or.inr (by simp [natListLeB, hba])
        · rcases ih bs with h | h
          · exact Or.inl (by simp [natListLeB, hab, hba, h])
          · exact Or.inr (by simp [natListLeB, hab, hba, h])

theorem natListLeB_trans {x y z : List Nat} (hxy : natListLeB x y = true)
    (hyz : natListLeB y z = true) : natListLeB x z = true := by
  induction x generalizing y z with
  | nil => rfl
  | cons a as ih =>
    cases y with
    | nil => simp [natListLeB] at hxy
    | cons b bs =>
      cases z with
      | nil => simp [natListLeB] at hyz
      | cons c cs =>
        simp only [natListLeB] at hxy hyz ⊢
        rcases Nat.lt_trichotomy a b with hab | hab | hab
        · rcases Nat.lt_trichotomy b c with hbc | hbc | hbc
          · have hac : a < c := by omega
            simp [hac]
          · have hac : a < c := by omega
            simp [hac]
          · simp [show ¬ b < c by omega, hbc] at hyz
        · subst hab
          rcases Nat.lt_trichotomy a c with hac | hac | hac
          · simp [hac]
          · subst hac
            simp only [lt_irrefl, if_false, ite_false] at hxy hyz ⊢
            exact ih hxy hyz
          · simp [show ¬ a < c by omega, hac] at hyz
        · simp [show ¬ a < b by omega, hab] at hxy

instance : IsTotal String strLeP :=
  ⟨fun a b => natListLeB_total _ _⟩

instance : IsTrans String strLeP :=
  ⟨fun _ _ _ hxy hyz => natListLeB_trans hxy hyz⟩

/-- Python's `sorted(...)` applied to a set of strings: sort the deduplicated
elements lexicographically. -/
def sortedStrs (l : List String) : List String :=
  List.insertionSort strLeP l

/-! ### Python textual representations -/

/-- Python `repr` of a plain string: the text wrapped in single quotes. -/
def pyQuote (s : String) : String := "\x27" ++ s ++ "\x27"

/-- Python `repr` of a list of strings. -/
def pyListRepr (xs : List String) : String :=
  "[" ++ strJoin ", " (xs.map pyQuote) ++ "]"

/-- Python `repr` of a set of strings.  Python's set iteration order is
unspecified; the model fixes first-occurrence order of the underlying list. -/
def pySetRepr (xs : List String) : String :=
  "\x7b" ++ strJoin ", " (xs.dedup.map pyQuote) ++ "\x7d"

theorem pyListRepr_contains {xs : List String} {x : String} (hx : x ∈ xs) :
    strContains (pyListRepr xs) (pyQuote x) :=
  strContains_appR _ (strContains_appL _ (mem_strJoin_contains _ (List.mem_map_of_mem _ hx)))

theorem pySetRepr_contains {xs : List String} {x : String} (hx : x ∈ xs) :
    strContains (pySetRepr xs) (pyQuote x) :=
  strContains_appR _ (strContains_appL _
    (mem_strJoin_contains _ (List.mem_map_of_mem _ (List.mem_dedup.mpr hx))))

/-- Python `str.upper`, at ASCII range. -/
def strUpper (s : String) : String := String.mk (s.data.map Char.toUpper)

/-- Python `str.lower`, at ASCII range. -/
def strLower (s : String) : String := String.mk (s.data.map Char.toLower)

/-! ### Data model (from `infra_config.py`) -/

/-- One environment entry of `infra.yaml` (Python dataclass `EnvConfig`). -/
structure EnvConfig where
  env : String
  hosted_on : String
  aws_profile : Option String
  gcp_project_id : Option String
  infra_dir : String
deriving DecidableEq

/-- One backend-bucket entry of `infra.yaml` (Python dataclass `BackendBucket`). -/
structure BackendBucket where
  env : String
  hosted_on : String
  bucket_name : String
  region : Option String
deriving DecidableEq

/-- A tfvars value.  The source accepts `Any`; per the descriptor schema the
values are strings (or other scalars, carried here by their `str(...)` text),
lists of strings, or string-to-string mappings. -/
inductive TfValue where
  | scalar (text : String)
  | list (items : List String)
  | map (entries : List (String × String))
deriving DecidableEq

/-- One per-environment variable set (Python dataclass `TfVars`).  The Python
dict is modelled as an insertion-ordered association list; the source field
name `variables` is a reserved word in Lean, so the field is called `vars`. -/
structure TfVars where
  env : String
  vars : List (String × TfValue)
deriving DecidableEq

/-- The aggregate configuration (Python dataclass `InfraConfig`). -/
structure InfraConfig where
  envs : List EnvConfig
  backend_buckets : List BackendBucket
  tfvars : List TfVars
  project_root : String
deriving DecidableEq

/-- Python `InfraConfig.get_env`: first entry whose name matches
case-insensitively, else a `ValueError` with the requested and available keys. -/
def InfraConfig.get_env (c : InfraConfig) (env : String) : Except String EnvConfig :=
  match c.envs.find? (fun e => strUpper e.env == strUpper env) with
  | some e => .ok e
  | none => .error ("No env configured for \x27" ++ env ++ "\x27. Available: " ++
      pyListRepr (c.envs.map EnvConfig.env))

/-- Python `InfraConfig.get_backend_bucket`. -/
def InfraConfig.get_backend_bucket (c : InfraConfig) (env : String) :
    Except String BackendBucket :=
  match c.backend_buckets.find? (fun b => strUpper b.env == strUpper env) with
  | some b => .ok b
  | none => .error ("No backend bucket configured for env \x27" ++ env ++ "\x27. Available: " ++
      pyListRepr (c.backend_buckets.map BackendBucket.env))

/-- Python `InfraConfig.get_tfvars`. -/
def InfraConfig.get_tfvars (c : InfraConfig) (env : String) : Except String TfVars :=
  match c.tfvars.find? (fun tv => strUpper tv.env == strUpper env) with
  | some tv => .ok tv
  | none => .error ("No tfvars configured for env \x27" ++ env ++ "\x27. Available: " ++
      pyListRepr (c.tfvars.map TfVars.env))

/-! ### Variable-file generation (`_format_tfvars_value`, `_generate_tfvars_files`) -/

/-- Python `_format_tfvars_value`. -/
def formatTfvarsValue : TfValue → String
  | .list items => "[\n" ++ strJoin ",\n" (items.map (fun item => "  \"" ++ item ++ "\"")) ++ ",\n]"
  | .map entries =>
      "\x7b\n" ++ strJoin "\n" (entries.map (fun kv => "  \"" ++ kv.1 ++ "\" = \"" ++ kv.2 ++ "\"")) ++ "\n\x7d"
  | .scalar text => "\"" ++ text ++ "\""

/-- The full text written by `_generate_tfvars_files`: one `key = value` line
per variable, newline-joined, plus a trailing newline. -/
def generateContent (vars : List (String × TfValue)) : String :=
  strJoin "\n" (vars.map (fun kv => kv.1 ++ " = " ++ formatTfvarsValue kv.2)) ++ "\n"

/-- Python `_generate_tfvars_files`: fails when the infra directory does not
exist; otherwise returns the written file as a (path, content) pair. -/
def generateTfvarsFiles (dirExists : Bool) (infraPath : String) (tv : TfVars) :
    Except String (String × String) :=
  if dirExists then
    .ok (infraPath ++ "/" ++ (strLower tv.env ++ ".tfvars"), generateContent tv.vars)
  else
    .error ("infra directory not found at " ++ infraPath ++
      ". Please create it before running this command.")

/-! ### Variable-declaration parsing (`_parse_variables_tf`)

The source uses three regexes: `variable\s+"(\w+)"` (findall), the same
followed by `\s*\{` (finditer, with a hand-rolled brace-depth scan for the
block body), and `^\s*default\s*=` (multiline search inside a body).  They are
embedded as direct character scanners; `\s` and `\w` are taken at ASCII range.
The scanners use structural recursion on a fuel argument initialised to the
text length, which bounds the number of scan steps (every step consumes at
least one character). -/

/-- Python regex `\s` (ASCII range). -/
def isPySpace (c : Char) : Bool :=
  c = ' ' || c = '\t' || c = '\n' || c = '\r' || c = '\x0b' || c = '\x0c'

/-- Python regex `\w` (ASCII range). -/
def isWordChar (c : Char) : Bool := c.isAlphanum || c = '_'

/-- Match the regex `variable\s+"(\w+)"` at the head of `l`; on success return
the captured name and the characters after the closing quote. -/
def matchVarHeader (l : List Char) : Option (String × List Char) :=
  if l.take 8 = "variable".data then
    let r1 := l.drop 8
    if (r1.takeWhile isPySpace).isEmpty then none
    else
      match r1.dropWhile isPySpace with
      | '"' :: r2 =>
        let w := r2.takeWhile isWordChar
        if w.isEmpty then none
        else
          match r2.dropWhile isWordChar with
          | '"' :: r3 => some (String.mk w, r3)
          | _ => none
      | _ => none
  else none

/-- Match the regex `variable\s+"(\w+)"\s*\{` at the head of `l`; on success
return the captured name and the characters after the opening brace. -/
def matchVarHeaderBrace (l : List Char) : Option (String × List Char) :=
  match matchVarHeader l with
  | some (name, r) =>
    match r.dropWhile isPySpace with
    | '\x7b' :: r2 => some (name, r2)
    | _ => none
  | none => none

/-- The brace-depth body scan of `_parse_variables_tf`: starting just after the
opening brace at the given depth, return the characters up to (excluding) the
brace that closes the block, or `none` if the braces never rebalance. -/
def scanBlockBody : List Char → Nat → Option (List Char)
  | [], _ => none
  | c :: cs, depth =>
    if c = '\x7b' then (scanBlockBody cs (depth + 1)).map (fun t => c :: t)
    else if c = '\x7d' then
      if depth = 1 then some []
      else (scanBlockBody cs (depth - 1)).map (fun t => c :: t)
    else (scanBlockBody cs depth).map (fun t => c :: t)

/-- Match the regex `\s*default\s*=` at the head of `l`. -/
def matchDefaultAt (l : List Char) : Bool :=
  let r1 := l.dropWhile isPySpace
  if r1.take 7 = "default".data then
    match (r1.drop 7).dropWhile isPySpace with
    | '=' :: _ => true
    | _ => false
  else false

/-- Scan for a position right after a newline where `\s*default\s*=` matches. -/
def matchDefaultAfterNewline : List Char → Bool
  | [] => false
  | c :: cs => (c = '\n' && matchDefaultAt cs) || matchDefaultAfterNewline cs

/-- Python `re.search(r'^\s*default\s*=', body, re.MULTILINE)`: the pattern
matches at the start of the body or right after any newline. -/
def hasDefaultML (body : List Char) : Bool :=
  matchDefaultAt body || matchDefaultAfterNewline body

/-- Fuelled scan for `re.findall(r'variable\s+"(\w+)"', content)`: try a match
at each position, continuing after the end of each successful match. -/
def findVarNamesAux : Nat → List Char → List String
  | 0, _ => []
  | _ + 1, [] => []
  | fuel + 1, c :: cs =>
    match matchVarHeader (c :: cs) with
    | some (name, rest) => name :: findVarNamesAux fuel rest
    | none => findVarNamesAux fuel cs

/-- All declared variable names, in match order (the source wraps this in a
set; the list below may contain duplicates exactly when the file redeclares a
name). -/
def findVarNames (l : List Char) : List String := findVarNamesAux l.length l

/-- Fuelled scan for the `re.finditer(r'variable\s+"(\w+)"\s*\{', content)`
loop of `_parse_variables_tf`: for each header match, scan the block body from
the match end and record the name when the body contains a default assignment;
the position scan continues after the header match (not after the body). -/
def findDefaultedAux : Nat → List Char → List String
  | 0, _ => []
  | _ + 1, [] => []
  | fuel + 1, c :: cs =>
    match matchVarHeaderBrace (c :: cs) with
    | some (name, rest) =>
      match scanBlockBody rest 1 with
      | some body =>
        if hasDefaultML body then name :: findDefaultedAux fuel rest
        else findDefaultedAux fuel rest
      | none => findDefaultedAux fuel rest
    | none => findDefaultedAux fuel cs

/-- The declared names whose block body contains a default assignment. -/
def findDefaulted (l : List Char) : List String := findDefaultedAux l.length l

/-- Python `_parse_variables_tf` applied to the text of `variables.tf`:
`(all variable names, variables with defaults)`. -/
def parseVariablesTfContent (content : String) : List String × List String :=
  (findVarNames content.data, findDefaulted content.data)

/-- Python `_parse_variables_tf` including the existence check: `content` is
the text of `<infraPath>/variables.tf` when that file exists. -/
def parseVariablesTf (content : Option String) (infraPath : String) :
    Except String (List String × List String) :=
  match content with
  | none => .error ("variables.tf not found at " ++ (infraPath ++ "/variables.tf") ++
      ". Cannot validate tfvars against Terraform variables.")
  | some c => .ok (parseVariablesTfContent c)

/-! ### Variable-set validation (`_validate_tfvars_against_variables`) -/

/-- The sorted list of missing required variables:
`sorted((all_vars - defaulted) - yaml_keys)`. -/
def missingVars (allVars defaulted yamlKeys : List String) : List String :=
  sortedStrs ((allVars.filter (fun v => !(defaulted.contains v) && !(yamlKeys.contains v))).dedup)

/-- The sorted list of extra keys: `sorted(yaml_keys - all_vars)`. -/
def extraVars (allVars yamlKeys : List String) : List String :=
  sortedStrs ((yamlKeys.filter (fun k => !(allVars.contains k))).dedup)

/-- The `errors` list built by `_validate_tfvars_against_variables`. -/
def validationErrorLines (env : String) (missing extra : List String) : List String :=
  (if missing.isEmpty then [] else
    ["  env \x27" ++ env ++ "\x27: missing required variables: " ++ pyListRepr missing]) ++
  (if extra.isEmpty then [] else
    ["  env \x27" ++ env ++ "\x27: extra keys not in variables.tf: " ++ pyListRepr extra])

/-- Python `_validate_tfvars_against_variables`.  `content` is the text of
`<infraPath>/variables.tf` when that file exists. -/
def validateTfvarsAgainstVariables (content : Option String) (infraPath : String)
    (tv : TfVars) : Except String Unit :=
  match parseVariablesTf content infraPath with
  | .error e => .error e
  | .ok (allVars, defaulted) =>
    let missing := missingVars allVars defaulted (tv.vars.map Prod.fst)
    let extra := extraVars allVars (tv.vars.map Prod.fst)
    let errors := validationErrorLines tv.env missing extra
    if errors.isEmpty then .ok ()
    else .error ("tfvars in infra.yaml do not match " ++ infraPath ++ "/variables.tf:\n" ++
      strJoin "\n" errors)

/-! ### Configuration loading (`load_infra_config`, `_discover_project_root`) -/

/-- One entry of the raw `envs` section: presence of each key in the Python
dict is modelled with `Option`. -/
structure RawEnvEntry where
  hosted_on : Option String
  aws_profile : Option String
  gcp_project_id : Option String
  infra_dir : Option String

/-- One entry of the raw `backend_buckets` section. -/
structure RawBucketEntry where
  hosted_on : Option String
  bucket_name : Option String
  region : Option String

/-- The parsed `infra.yaml` document (`raw` in the source): each section is
`none` when its top-level key is absent. -/
structure RawConfig where
  envs : Option (List (String × RawEnvEntry))
  backend_buckets : Option (List (String × RawBucketEntry))
  tfvars : Option (List (String × List (String × TfValue)))

/-- The read-only filesystem view the loader consults: whether each infra
directory exists, and the text of each directory's `variables.tf` (when that
file exists). -/
structure Fs where
  dirExists : String → Bool
  variablesTf : String → Option String

/-- The `envs` loop of `load_infra_config`: check required keys, build
`EnvConfig` values, abort on the first missing key. -/
def buildEnvs (infraYamlPath : String) : List (String × RawEnvEntry) →
    Except String (List EnvConfig)
  | [] => .ok []
  | (env, v) :: rest =>
    match v.hosted_on with
    | none => .error ("Missing \x27hosted_on\x27 for env \x27" ++ env ++ "\x27 in " ++
        infraYamlPath ++ ".")
    | some ho =>
      match v.infra_dir with
      | none => .error ("Missing \x27infra_dir\x27 for env \x27" ++ env ++ "\x27 in " ++
          infraYamlPath ++ ".")
      | some dir =>
        (buildEnvs infraYamlPath rest).map
          (fun tail => ⟨env, ho, v.aws_profile, v.gcp_project_id, dir⟩ :: tail)

/-- The `backend_buckets` loop of `load_infra_config`. -/
def buildBuckets (infraYamlPath : String) : List (String × RawBucketEntry) →
    Except String (List BackendBucket)
  | [] => .ok []
  | (env, v) :: rest =>
    match v.hosted_on with
    | none => .error ("Missing \x27hosted_on\x27 for env \x27" ++ env ++ "\x27 in " ++
        infraYamlPath ++ ".")
    | some ho =>
      match v.bucket_name with
      | none => .error ("Missing \x27bucket_name\x27 for env \x27" ++ env ++ "\x27 in " ++
          infraYamlPath ++ ".")
      | some bn =>
        (buildBuckets infraYamlPath rest).map
          (fun tail => ⟨env, ho, bn, v.region⟩ :: tail)

/-- The optional `tfvars` section of `load_infra_config`: when present, its
environment-name set must equal the `envs` name set exactly. -/
def checkTfvarsSection (infraYamlPath : String) (envs : List EnvConfig) :
    Option (List (String × List (String × TfValue))) → Except String (List TfVars)
  | none => .ok []
  | some m =>
    let envNames := envs.map EnvConfig.env
    let tfvarsKeys := m.map Prod.fst
    if envNames.toFinset = tfvarsKeys.toFinset then
      .ok (m.map (fun p => ⟨p.1, p.2⟩))
    else
      .error ("tfvars keys " ++ pySetRepr tfvarsKeys ++ " do not match envs keys " ++
        pySetRepr envNames ++ " in " ++ infraYamlPath ++
        ". They must have the same environments.")

/-- The per-variable-set step of the loading loop: resolve the environment,
validate against `variables.tf`, then generate the file. -/
def processOne (fs : Fs) (root : String) (cfg : InfraConfig) (tv : TfVars) :
    Except String (String × String) :=
  match cfg.get_env tv.env with
  | .error e => .error e
  | .ok envCfg =>
    let infraPath := root ++ "/" ++ envCfg.infra_dir
    match validateTfvarsAgainstVariables (fs.variablesTf infraPath) infraPath tv with
    | .error e => .error e
    | .ok () => generateTfvarsFiles (fs.dirExists infraPath) infraPath tv

/-- The `for tv in config.tfvars` loop of `load_infra_config`: returns the
files written so far (a real side effect that survives a later failure) and
the loop outcome. -/
def processTfvars (fs : Fs) (root : String) (cfg : InfraConfig) :
    List TfVars → List (String × String) × Except String Unit
  | [] => ([], .ok ())
  | tv :: rest =>
    match processOne fs root cfg tv with
    | .error e => ([], .error e)
    | .ok w =>
      let r := processTfvars fs root cfg rest
      (w :: r.1, r.2)

/-- Python `load_infra_config` from a parsed descriptor: returns the list of
variable files written (path, content) together with the outcome. -/
def loadInfraConfig (fs : Fs) (root : String) (raw : RawConfig) :
    List (String × String) × Except String InfraConfig :=
  let infraYamlPath := root ++ "/infra.yaml"
  match raw.envs with
  | none => ([], .error ("\x27envs\x27 key not found in " ++ infraYamlPath ++
      ". Please define envs in infra.yaml."))
  | some rawEnvs =>
    match raw.backend_buckets with
    | none => ([], .error ("\x27backend_buckets\x27 key not found in " ++ infraYamlPath ++
        ". Please define backend_buckets in infra.yaml."))
    | some rawBuckets =>
      match buildEnvs infraYamlPath rawEnvs with
      | .error e => ([], .error e)
      | .ok envs =>
        match buildBuckets infraYamlPath rawBuckets with
        | .error e => ([], .error e)
        | .ok buckets =>
          match checkTfvarsSection infraYamlPath envs raw.tfvars with
          | .error e => ([], .error e)
          | .ok tfvars =>
            let cfg : InfraConfig := ⟨envs, buckets, tfvars, root⟩
            let r := processTfvars fs root cfg cfg.tfvars
            (r.1, r.2.map (fun _ => cfg))

/-- The fixed message raised by `_discover_project_root` when no ancestor
directory holds `infra.yaml`. -/
def discoverFailMsg : String :=
  "Could not find infra.yaml in current directory or any parent. Pass project_root explicitly or ensure infra.yaml exists."

/-- Python `_discover_project_root`: walk the chain `[cwd, *cwd.parents]` and
return the first directory containing `infra.yaml`. -/
def discoverProjectRoot (hasInfraYaml : String → Bool) (chain : List String) :
    Except String String :=
  match chain.find? hasInfraYaml with
  | some p => .ok p
  | none => .error discoverFailMsg

/-! ### Round-trip re-parsing (spec section 8)

The spec's round-trip property re-parses a generated file "line by line
(splitting each line at the equals sign and stripping the surrounding double
quotes)".  No such parser exists in the source; the definitions below are
modelled from those words. -/

/-- Modelled from the spec: split a list of characters at each newline. -/
def splitLinesData : List Char → List (List Char)
  | [] => [[]]
  | c :: rest =>
    if c = '\n' then [] :: splitLinesData rest
    else
      match splitLinesData rest with
      | [] => [[c]]
      | l :: ls => (c :: l) :: ls

/-- Modelled from the spec: split a line at the first occurrence of the
`" = "` delimiter. -/
def splitAtSep : List Char → Option (List Char × List Char)
  | [] => none
  | c :: cs =>
    if c = ' ' && cs.take 2 = ['=', ' '] then some ([], cs.drop 2)
    else (splitAtSep cs).map (fun p => (c :: p.1, p.2))

/-- Modelled from the spec: strip the surrounding double quotes. -/
def stripQuotesData : List Char → Option (List Char)
  | '"' :: rest => if rest.getLast? = some '"' then some rest.dropLast else none
  | _ => none

/-- Modelled from the spec: re-parse one generated line into a key/value pair. -/
def reparseLineData (l : List Char) : Option (String × String) :=
  match splitAtSep l with
  | none => none
  | some (k, v) =>
    match stripQuotesData v with
    | none => none
    | some w => some (String.mk k, String.mk w)

/-- Modelled from the spec: re-parse a generated file line by line (the
generated file ends with a newline, so the final empty segment is dropped). -/
def reparseContent (content : String) : Option (List (String × String)) :=
  ((splitLinesData content.data).dropLast).mapM reparseLineData

/-! ### Concrete instances used by witnesses and counterexamples -/

/-- A two-environment descriptor whose `dev` variable set validates and whose
`prod` variable set is missing the required variable `region`. -/
def rawTwoEnv : RawConfig where
  envs := some
    [("dev", ⟨some "GCP", none, some "proj", some "infra/dev"⟩),
     ("prod", ⟨some "AWS", some "prof", none, some "infra/prod"⟩)]
  backend_buckets := some
    [("dev", ⟨some "GCP", some "dev-bucket", none⟩),
     ("prod", ⟨some "AWS", some "prod-bucket", some "us-east-1"⟩)]
  tfvars := some
    [("dev", [("region", .scalar "us-central1")]),
     ("prod", [])]

/-- A filesystem where both infra directories exist and both declare a single
required variable `region`. -/
def fsTwoEnv : Fs where
  dirExists := fun p => p == "/r/infra/dev" || p == "/r/infra/prod"
  variablesTf := fun p =>
    if p == "/r/infra/dev" || p == "/r/infra/prod" then
      some "variable \"region\" \x7b\x7d\n"
    else none

/-! ### Further string lemmas -/

theorem strAppend_assoc (a b c : String) : a ++ b ++ c = a ++ (b ++ c) := by
  cases a with
  | mk x =>
    cases b with
    | mk y =>
      cases c with
      | mk z => exact congrArg String.mk (List.append_assoc x y z)

theorem strAppend_empty (a : String) : a ++ "" = a := by
  cases a with
  | mk x => exact congrArg String.mk (List.append_nil x)

theorem strContains_trans {a b c : String} (hab : strContains a b) (hbc : strContains b c) :
    strContains a c := by
  obtain ⟨x, y, hxy⟩ := hab
  obtain ⟨u, v, huv⟩ := hbc
  exact ⟨x ++ u, v ++ y, by simp [hxy, huv]⟩

/-- Appending the separator to a nonempty join yields the concatenation of the
separator-terminated pieces. -/
theorem strJoin_append_sep (sep : String) (xs : List String) (hxs : xs ≠ []) :
    strJoin sep xs ++ sep = strConcat (xs.map (fun x => x ++ sep)) := by
  induction xs with
  | nil => cases hxs rfl
  | cons x rest ih =>
    cases rest with
    | nil => simp [strJoin, strConcat, strAppend_empty]
    | cons y ys =>
      have h := ih (by simp)
      show x ++ sep ++ strJoin sep (y :: ys) ++ sep = (x ++ sep) ++ strConcat ((y :: ys).map (fun x => x ++ sep))
      rw [← h, strAppend_assoc (x ++ sep)]

/-! ### Claim C10 -/

/-- Claim C10: a variable whose value is the empty list is rendered as an
opening bracket, a newline, a line consisting of a single comma, and a closing
bracket — not as an empty bracket pair. -/
theorem c10_empty_list_renders_comma_block :
    formatTfvarsValue (.list []) = "[\n,\n]" ∧ formatTfvarsValue (.list []) ≠ "[]" :=
  ⟨rfl, by decide⟩

/-! ### Claim C5 -/

/-- Claim C5: a non-empty list value renders as a bracketed newline-separated
block, every element on its own line, double-quoted and comma-terminated
including the last; `{"items": ["a", "b"]}` renders exactly as in the spec's
Scenario 5, and the generated file text ends with a trailing newline. -/
theorem c5_list_rendering :
    generateContent [("items", .list ["a", "b"])] = "items = [\n  \"a\",\n  \"b\",\n]\n" ∧
    (∀ xs : List String, xs ≠ [] →
      formatTfvarsValue (.list xs) =
        "[\n" ++ strConcat (xs.map (fun x => "  \"" ++ x ++ "\",\n")) ++ "]") ∧
    (∀ vars : List (String × TfValue), ∃ s, generateContent vars = s ++ "\n") := by
  refine ⟨rfl, ?_, fun vars => ⟨_, rfl⟩⟩
  intro xs hxs
  show "[\n" ++ strJoin ",\n" (xs.map (fun item => "  \"" ++ item ++ "\"")) ++ ",\n]" = _
  have h1 : (",\n]" : String) = ",\n" ++ "]" := rfl
  rw [h1, ← strAppend_assoc, strAppend_assoc ("[\n" : String),
    strJoin_append_sep ",\n" (xs.map (fun item => "  \"" ++ item ++ "\"")) (by simpa using hxs),
    List.map_map]
  have h2 : ((fun x => x ++ ",\n") ∘ fun item => "  \"" ++ item ++ "\"") =
      (fun x => "  \"" ++ x ++ "\",\n") := by
    funext x
    show "  \"" ++ x ++ "\"" ++ ",\n" = "  \"" ++ x ++ "\",\n"
    rw [strAppend_assoc ("  \"" ++ x)]
    rfl
  rw [h2]

/-- Witness for C5 at a concrete one-element list. -/
theorem c5_list_rendering_witness :
    formatTfvarsValue (.list ["only"]) =
      "[\n" ++ strConcat (["only"].map (fun x => "  \"" ++ x ++ "\",\n")) ++ "]" :=
  c5_list_rendering.2.1 ["only"] (by decide)

/-! ### Claim C2 -/

/-- A character that is neither an opening nor a closing brace. -/
def braceFreeChar (c : Char) : Bool := !(c = '\x7b' || c = '\x7d')

/-- The body scan passes over brace-free characters unchanged. -/
theorem scanBlockBody_braceFree_skip (a : List Char) (ha : a.all braceFreeChar = true)
    (l : List Char) (d : Nat) :
    scanBlockBody (a ++ l) d = (scanBlockBody l d).map (fun t => a ++ t) := by
  induction a with
  | nil =>
    simp
  | cons c a' ih =>
    have hc := List.all_eq_true.mp ha c (by simp)
    have hc1 : ¬ c = '\x7b' := by
      simp only [braceFreeChar, Bool.not_eq_true', Bool.or_eq_false_iff] at hc
      simpa using hc.1
    have hc2 : ¬ c = '\x7d' := by
      simp only [braceFreeChar, Bool.not_eq_true', Bool.or_eq_false_iff] at hc
      simpa using hc.2
    have ha' : a'.all braceFreeChar = true := by
      simp only [List.all_cons, Bool.and_eq_true] at ha
      exact ha.2
    show scanBlockBody (c :: (a' ++ l)) d = _
    simp only [scanBlockBody, if_neg hc1, if_neg hc2, ih ha', Option.map_map]
    rfl

/-- The declarations text used to exhibit nesting: a structured (brace-
delimited) default value inside a single declaration. -/
def nestedDefaultTf : String :=
  "variable \"x\" \x7b\n  default = \x7b\n    a = \"b\"\n  \x7d\n\x7d\n"

/-- Claim C2: the body scan tracks brace depth (a nested brace-delimited
sub-block is passed over rather than terminating the body at its closing
brace); a declaration whose default value is itself a brace-delimited
structure is classified as having a default; an empty declarations file yields
two empty sets. -/
theorem c2_nested_brace_parsing :
    (∀ a b rest : List Char, a.all braceFreeChar = true → b.all braceFreeChar = true →
      scanBlockBody (a ++ '\x7b' :: (b ++ '\x7d' :: rest)) 1 =
        (scanBlockBody rest 1).map (fun t => a ++ '\x7b' :: (b ++ '\x7d' :: t))) ∧
    parseVariablesTfContent nestedDefaultTf = (["x"], ["x"]) ∧
    parseVariablesTfContent "" = ([], []) := by
  refine ⟨?_, rfl, rfl⟩
  intro a b rest ha hb
  rw [scanBlockBody_braceFree_skip a ha]
  have h1 : scanBlockBody ('\x7b' :: (b ++ '\x7d' :: rest)) 1 =
      (scanBlockBody (b ++ '\x7d' :: rest) 2).map (fun t => '\x7b' :: t) := by
    simp [scanBlockBody]
  have h2 : scanBlockBody ('\x7d' :: rest) 2 =
      (scanBlockBody rest 1).map (fun t => '\x7d' :: t) := by
    simp [scanBlockBody]
  rw [h1, scanBlockBody_braceFree_skip b hb, h2]
  cases scanBlockBody rest 1 <;> simp [List.append_assoc]

/-- Witness for C2's depth-tracking conjunct at concrete brace-free segments. -/
theorem c2_nested_brace_parsing_witness :
    scanBlockBody ([' '] ++ '\x7b' :: (['q'] ++ '\x7d' :: ['\x7d'])) 1 =
      (scanBlockBody ['\x7d'] 1).map (fun t => [' '] ++ '\x7b' :: (['q'] ++ '\x7d' :: t)) :=
  c2_nested_brace_parsing.1 [' '] ['q'] ['\x7d'] (by decide) (by decide)

/-! ### Claim C8 -/

/-- The declarations text used for claim C8: the only default-assignment line
sits at brace depth 2, inside a nested `validation` sub-block. -/
def nestedOnlyDefaultTf : String :=
  "variable \"x\" \x7b\n  validation \x7b\n    default = \"y\"\n  \x7d\n\x7d\n"

/-- Counterexample to claim C8: for a declaration whose only default-assignment
line appears inside a nested sub-block (brace depth 2), the parser still puts
the variable in the names-with-defaults set. -/
theorem c8_counterexample :
    parseVariablesTfContent nestedOnlyDefaultTf = (["x"], ["x"]) := rfl

/-- A default-assignment line after any newline triggers the multiline search. -/
theorem matchDefaultAfterNewline_append (b1 b2 : List Char)
    (h : matchDefaultAt b2 = true) :
    matchDefaultAfterNewline (b1 ++ '\n' :: b2) = true := by
  induction b1 with
  | nil => simp [matchDefaultAfterNewline, h]
  | cons c b1' ih => simp [matchDefaultAfterNewline, ih]

/-- Claim C8 amended: the parser classifies a variable as defaulted whenever a
default-assignment pattern occurs anywhere in its declaration body — at any
brace depth, nested sub-blocks included — because the multiline search runs
over the whole body text; in particular the depth-2 default of
`nestedOnlyDefaultTf` does put `x` in the names-with-defaults set. -/
theorem c8_default_at_any_depth :
    (∀ b1 b2 : List Char, matchDefaultAt b2 = true →
      hasDefaultML (b1 ++ '\n' :: b2) = true) ∧
    "x" ∈ (parseVariablesTfContent nestedOnlyDefaultTf).2 := by
  refine ⟨?_, by decide⟩
  intro b1 b2 h
  simp [hasDefaultML, matchDefaultAfterNewline_append b1 b2 h]

/-- Witness for C8's amended statement: a default line behind a newline, deep
inside nested braces, still triggers the body search. -/
theorem c8_default_at_any_depth_witness :
    hasDefaultML (("\x7b\x7b" : String).data ++ '\n' :: ("default=" : String).data) = true :=
  c8_default_at_any_depth.1 ("\x7b\x7b" : String).data ("default=" : String).data (by decide)

/-! ### Claim C4 -/

/-- The lookup error message contains the requested key and every available
key (quoted, inside the interpolated list). -/
theorem lookup_error_contains (names : List String) (q A B : String) :
    strContains (A ++ q ++ B ++ pyListRepr names) q ∧
    ∀ n ∈ names, strContains (A ++ q ++ B ++ pyListRepr names) (pyQuote n) :=
  ⟨strContains_appR _ (strContains_appR _ (strContains_last A q)),
   fun _ hn => strContains_appL _ (pyListRepr_contains hn)⟩

/-- Claim C4: `get_env`, `get_backend_bucket` and `get_tfvars` resolve names
case-insensitively (queries with equal uppercasings succeed on the same
entry), and an unmatched query produces an error whose message contains the
requested key and every available key. -/
theorem c4_lookups_case_insensitive_and_loud :
    (∀ (c : InfraConfig) (q1 q2 : String), strUpper q1 = strUpper q2 →
      (∀ e, c.get_env q1 = .ok e ↔ c.get_env q2 = .ok e) ∧
      (∀ b, c.get_backend_bucket q1 = .ok b ↔ c.get_backend_bucket q2 = .ok b) ∧
      (∀ tv, c.get_tfvars q1 = .ok tv ↔ c.get_tfvars q2 = .ok tv)) ∧
    (∀ (c : InfraConfig) (q : String), (∀ e ∈ c.envs, strUpper e.env ≠ strUpper q) →
      ∃ m, c.get_env q = .error m ∧ strContains m q ∧
        ∀ e ∈ c.envs, strContains m (pyQuote e.env)) ∧
    (∀ (c : InfraConfig) (q : String),
      (∀ b ∈ c.backend_buckets, strUpper b.env ≠ strUpper q) →
      ∃ m, c.get_backend_bucket q = .error m ∧ strContains m q ∧
        ∀ b ∈ c.backend_buckets, strContains m (pyQuote b.env)) ∧
    (∀ (c : InfraConfig) (q : String), (∀ tv ∈ c.tfvars, strUpper tv.env ≠ strUpper q) →
      ∃ m, c.get_tfvars q = .error m ∧ strContains m q ∧
        ∀ tv ∈ c.tfvars, strContains m (pyQuote tv.env)) := by
  refine ⟨?_, ?_, ?_, ?_⟩
  · intro c q1 q2 h
    refine ⟨fun e => ?_, fun b => ?_, fun tv => ?_⟩ <;>
      simp only [InfraConfig.get_env, InfraConfig.get_backend_bucket,
        InfraConfig.get_tfvars, h]
    · cases List.find? (fun e => strUpper e.env == strUpper q2) c.envs <;> simp
    · cases List.find? (fun b => strUpper b.env == strUpper q2) c.backend_buckets <;> simp
    · cases List.find? (fun tv => strUpper tv.env == strUpper q2) c.tfvars <;> simp
  · intro c q hq
    have hnone : c.envs.find? (fun e => strUpper e.env == strUpper q) = none :=
      List.find?_eq_none.mpr (fun e he => by simpa using hq e he)
    refine ⟨"No env configured for \x27" ++ q ++ "\x27. Available: " ++
        pyListRepr (c.envs.map EnvConfig.env), ?_, ?_, ?_⟩
    · simp [InfraConfig.get_env, hnone]
    · exact (lookup_error_contains (c.envs.map EnvConfig.env) q _ _).1
    · intro e he
      exact (lookup_error_contains (c.envs.map EnvConfig.env) q _ _).2 _
        (List.mem_map_of_mem _ he)
  · intro c q hq
    have hnone : c.backend_buckets.find? (fun b => strUpper b.env == strUpper q) = none :=
      List.find?_eq_none.mpr (fun b hb => by simpa using hq b hb)
    refine ⟨"No backend bucket configured for env \x27" ++ q ++ "\x27. Available: " ++
        pyListRepr (c.backend_buckets.map BackendBucket.env), ?_, ?_, ?_⟩
    · simp [InfraConfig.get_backend_bucket, hnone]
    · exact (lookup_error_contains (c.backend_buckets.map BackendBucket.env) q _ _).1
    · intro b hb
      exact (lookup_error_contains (c.backend_buckets.map BackendBucket.env) q _ _).2 _
        (List.mem_map_of_mem _ hb)
  · intro c q hq
    have hnone : c.tfvars.find? (fun tv => strUpper tv.env == strUpper q) = none :=
      List.find?_eq_none.mpr (fun tv htv => by simpa using hq tv htv)
    refine ⟨"No tfvars configured for env \x27" ++ q ++ "\x27. Available: " ++
        pyListRepr (c.tfvars.map TfVars.env), ?_, ?_, ?_⟩
    · simp [InfraConfig.get_tfvars, hnone]
    · exact (lookup_error_contains (c.tfvars.map TfVars.env) q _ _).1
    · intro tv htv
      exact (lookup_error_contains (c.tfvars.map TfVars.env) q _ _).2 _
        (List.mem_map_of_mem _ htv)

/-- A small configuration for the C4 witness. -/
def cfgDevProd : InfraConfig where
  envs := [⟨"dev", "GCP", none, some "proj", "infra/dev"⟩,
           ⟨"prod", "AWS", some "prof", none, "infra/prod"⟩]
  backend_buckets := [⟨"dev", "GCP", "dev-bucket", none⟩]
  tfvars := [⟨"dev", [("region", .scalar "us-central1")]⟩]
  project_root := "/r"

/-- Witness for C4 at a concrete configuration and concrete queries. -/
theorem c4_lookups_witness :
    (∀ e, cfgDevProd.get_env "DEV" = .ok e ↔ cfgDevProd.get_env "Dev" = .ok e) ∧
    (∃ m, cfgDevProd.get_env "staging" = .error m ∧ strContains m "staging" ∧
      ∀ e ∈ cfgDevProd.envs, strContains m (pyQuote e.env)) :=
  ⟨(c4_lookups_case_insensitive_and_loud.1 cfgDevProd "DEV" "Dev" (by decide)).1,
   c4_lookups_case_insensitive_and_loud.2.1 cfgDevProd "staging" (by decide)⟩

/-! ### Claim C7 -/

/-- Counterexample to claim C7: when the upward search for `infra.yaml` fails,
the raised message is the fixed `discoverFailMsg`, which does not include the
resolved absolute path of any directory that was attempted. -/
theorem c7_counterexample :
    discoverProjectRoot (fun _ => false) ["/home/user/project", "/home/user", "/home", "/"] =
      .error discoverFailMsg ∧
    ¬ strContains discoverFailMsg "/home/user/project" := by
  refine ⟨rfl, ?_⟩
  rintro ⟨a, b, hab⟩
  have h1 : '/' ∈ discoverFailMsg.data := by
    rw [hab]
    exact List.mem_append.mpr (Or.inl (List.mem_append.mpr (Or.inr (by decide))))
  exact absurd h1 (by decide)

/-- Claim C7 amended: the declarations-file and target-directory NotFound
errors carry the resolved path attempted, but the upward-search failure of
`_discover_project_root` raises a fixed message that names no path at all (it
contains no path separator). -/
theorem c7_notfound_messages :
    (∀ infraPath : String, ∃ m, parseVariablesTf none infraPath = .error m ∧
      strContains m (infraPath ++ "/variables.tf")) ∧
    (∀ (infraPath : String) (tv : TfVars), ∃ m,
      generateTfvarsFiles false infraPath tv = .error m ∧ strContains m infraPath) ∧
    (∀ (hasInfraYaml : String → Bool) (chain : List String) (m : String),
      discoverProjectRoot hasInfraYaml chain = .error m →
      m = discoverFailMsg ∧ '/' ∉ m.data) := by
  refine ⟨?_, ?_, ?_⟩
  · intro infraPath
    exact ⟨_, rfl, strContains_appR _ (strContains_last _ _)⟩
  · intro infraPath tv
    exact ⟨_, rfl, strContains_appR _ (strContains_last _ _)⟩
  · intro hasInfraYaml chain m h
    unfold discoverProjectRoot at h
    cases hf : chain.find? hasInfraYaml with
    | some p => rw [hf] at h; cases h
    | none =>
      rw [hf] at h
      cases h
      exact ⟨rfl, by decide⟩

/-- Witness for C7's discover-search conjunct at a concrete failing search. -/
theorem c7_notfound_messages_witness :
    discoverFailMsg = discoverFailMsg ∧ '/' ∉ discoverFailMsg.data :=
  c7_notfound_messages.2.2 (fun _ => false) ["/a"] discoverFailMsg rfl

/-! ### Claim C1 -/

theorem mem_missingVars (allVars defaulted yamlKeys : List String) (v : String) :
    v ∈ missingVars allVars defaulted yamlKeys ↔
      v ∈ allVars ∧ v ∉ defaulted ∧ v ∉ yamlKeys := by
  simp [missingVars, sortedStrs, List.mem_insertionSort, List.mem_dedup, List.mem_filter,
    List.elem_iff, and_assoc]

theorem mem_extraVars (allVars yamlKeys : List String) (k : String) :
    k ∈ extraVars allVars yamlKeys ↔ k ∈ yamlKeys ∧ k ∉ allVars := by
  simp [extraVars, sortedStrs, List.mem_insertionSort, List.mem_dedup, List.mem_filter,
    List.elem_iff]

theorem validationErrorLines_eq_nil (env : String) (missing extra : List String) :
    validationErrorLines env missing extra = [] ↔ missing = [] ∧ extra = [] := by
  unfold validationErrorLines
  by_cases hm : missing.isEmpty <;> by_cases hx : extra.isEmpty <;>
    simp_all [List.isEmpty_iff]

/-- Claim C1: the validator computes `missing = (all − defaulted) − keys` and
`extra = keys − all`, succeeds exactly when both are empty, never flags a
declared key as extra, and on failure its message carries the environment, the
declarations-file path, and each offending name-set rendered in sorted order. -/
theorem c1_validator_correct (content infraPath env : String)
    (vars : List (String × TfValue)) (allVars defaulted : List String)
    (hp : parseVariablesTfContent content = (allVars, defaulted))
    (keys : List String) (hk : keys = vars.map Prod.fst) :
    (validateTfvarsAgainstVariables (some content) infraPath ⟨env, vars⟩ = .ok () ↔
      missingVars allVars defaulted keys = [] ∧ extraVars allVars keys = []) ∧
    (∀ v, v ∈ missingVars allVars defaulted keys ↔
      v ∈ allVars ∧ v ∉ defaulted ∧ v ∉ keys) ∧
    (∀ k, k ∈ extraVars allVars keys ↔ k ∈ keys ∧ k ∉ allVars) ∧
    (∀ k, k ∈ allVars → k ∉ extraVars allVars keys) ∧
    List.Sorted strLeP (missingVars allVars defaulted keys) ∧
    List.Sorted strLeP (extraVars allVars keys) ∧
    (∀ e, validateTfvarsAgainstVariables (some content) infraPath ⟨env, vars⟩ = .error e →
      strContains e env ∧ strContains e infraPath ∧
      (missingVars allVars defaulted keys ≠ [] →
        strContains e (pyListRepr (missingVars allVars defaulted keys))) ∧
      (extraVars allVars keys ≠ [] →
        strContains e (pyListRepr (extraVars allVars keys)))) := by
  subst hk
  have hval : validateTfvarsAgainstVariables (some content) infraPath ⟨env, vars⟩ =
      (if (validationErrorLines env (missingVars allVars defaulted (vars.map Prod.fst))
            (extraVars allVars (vars.map Prod.fst))).isEmpty then .ok ()
       else .error ("tfvars in infra.yaml do not match " ++ infraPath ++ "/variables.tf:\n" ++
          strJoin "\n" (validationErrorLines env
            (missingVars allVars defaulted (vars.map Prod.fst))
            (extraVars allVars (vars.map Prod.fst))))) := by
    unfold validateTfvarsAgainstVariables parseVariablesTf
    dsimp only
    rw [hp]
  refine ⟨?_, mem_missingVars allVars defaulted _, mem_extraVars allVars _,
    fun k hk' hmem => ((mem_extraVars allVars _ k).mp hmem).2 hk',
    List.sorted_insertionSort strLeP _, List.sorted_insertionSort strLeP _, ?_⟩
  · rw [hval]
    by_cases h : (validationErrorLines env (missingVars allVars defaulted (vars.map Prod.fst))
        (extraVars allVars (vars.map Prod.fst))).isEmpty
    · simp only [h, if_true]
      simpa [← validationErrorLines_eq_nil env, List.isEmpty_iff] using h
    · simp only [h, Bool.false_eq_true, if_false]
      constructor
      · intro hcon; cases hcon
      · intro hboth
        exact absurd (List.isEmpty_iff.mpr
          ((validationErrorLines_eq_nil env _ _).mpr hboth)) h
  · intro e he
    rw [hval] at he
    by_cases h : (validationErrorLines env (missingVars allVars defaulted (vars.map Prod.fst))
        (extraVars allVars (vars.map Prod.fst))).isEmpty
    · rw [if_pos h] at he; cases he
    · rw [if_neg h] at he
      injection he with he'
      subst he'
      set missing := missingVars allVars defaulted (vars.map Prod.fst) with hmdef
      set extra := extraVars allVars (vars.map Prod.fst) with hxdef
      have hpath : strContains ("tfvars in infra.yaml do not match " ++ infraPath ++
          "/variables.tf:\n" ++ strJoin "\n" (validationErrorLines env missing extra))
          infraPath :=
        strContains_appR _ (strContains_appR _ (strContains_last _ _))
      have hlineContains : ∀ line ∈ validationErrorLines env missing extra,
          strContains ("tfvars in infra.yaml do not match " ++ infraPath ++
            "/variables.tf:\n" ++ strJoin "\n" (validationErrorLines env missing extra))
            line :=
        fun line hline => strContains_appL _ (mem_strJoin_contains _ hline)
      have hcases : missing ≠ [] ∨ extra ≠ [] := by
        by_contra hc
        push_neg at hc
        exact h (List.isEmpty_iff.mpr ((validationErrorLines_eq_nil env _ _).mpr hc))
      have hmissLine : missing ≠ [] →
          ("  env \x27" ++ env ++ "\x27: missing required variables: " ++ pyListRepr missing) ∈
            validationErrorLines env missing extra := by
        intro hm
        unfold validationErrorLines
        refine List.mem_append.mpr (Or.inl ?_)
        rw [if_neg (by simpa [List.isEmpty_iff] using hm)]
        simp
      have hextraLine : extra ≠ [] →
          ("  env \x27" ++ env ++ "\x27: extra keys not in variables.tf: " ++ pyListRepr extra) ∈
            validationErrorLines env missing extra := by
        intro hx
        unfold validationErrorLines
        refine List.mem_append.mpr (Or.inr ?_)
        rw [if_neg (by simpa [List.isEmpty_iff] using hx)]
        simp
      refine ⟨?_, hpath, ?_, ?_⟩
      · rcases hcases with hm | hx
        · exact strContains_trans (hlineContains _ (hmissLine hm))
            (strContains_appR _ (strContains_appR _ (strContains_last _ _)))
        · exact strContains_trans (hlineContains _ (hextraLine hx))
            (strContains_appR _ (strContains_appR _ (strContains_last _ _)))
      · intro hm
        exact strContains_trans (hlineContains _ (hmissLine hm)) (strContains_last _ _)
      · intro hx
        exact strContains_trans (hlineContains _ (hextraLine hx)) (strContains_last _ _)

/-- Witness for C1 at the spec's Scenario 3: one required variable, an empty
variable set. -/
theorem c1_validator_witness :
    validateTfvarsAgainstVariables (some "variable \"region\" \x7b\x7d\n") "/r/infra/dev"
        ⟨"dev", []⟩ = .ok () ↔
      missingVars ["region"] [] [] = [] ∧ extraVars ["region"] [] = [] :=
  (c1_validator_correct "variable \"region\" \x7b\x7d\n" "/r/infra/dev" "dev" []
    ["region"] [] rfl [] rfl).1

/-! ### Claim C3 -/

/-- Claim C3: when the descriptor has a tfvars section, loading succeeds only
if its environment-name set equals the `envs` name set exactly; any mismatch
aborts the load with an error listing the names of both sets. -/
theorem c3_tfvars_env_set_equality (fs : Fs) (root : String) (raw : RawConfig)
    (rawEnvs : List (String × RawEnvEntry)) (rawBuckets : List (String × RawBucketEntry))
    (m : List (String × List (String × TfValue)))
    (henv : raw.envs = some rawEnvs) (hbuck : raw.backend_buckets = some rawBuckets)
    (ht : raw.tfvars = some m)
    (envs : List EnvConfig) (buckets : List BackendBucket)
    (hbe : buildEnvs (root ++ "/infra.yaml") rawEnvs = .ok envs)
    (hbb : buildBuckets (root ++ "/infra.yaml") rawBuckets = .ok buckets) :
    (∀ cfg, (loadInfraConfig fs root raw).2 = .ok cfg →
      (envs.map EnvConfig.env).toFinset = (m.map Prod.fst).toFinset) ∧
    ((envs.map EnvConfig.env).toFinset ≠ (m.map Prod.fst).toFinset →
      ∃ e, (loadInfraConfig fs root raw).2 = .error e ∧
        (∀ n ∈ m.map Prod.fst, strContains e (pyQuote n)) ∧
        (∀ n ∈ envs.map EnvConfig.env, strContains e (pyQuote n))) := by
  by_cases heq : (envs.map EnvConfig.env).toFinset = (m.map Prod.fst).toFinset
  · exact ⟨fun _ _ => heq, fun hne => absurd heq hne⟩
  · have hcheck : checkTfvarsSection (root ++ "/infra.yaml") envs (some m) =
        .error ("tfvars keys " ++ pySetRepr (m.map Prod.fst) ++ " do not match envs keys " ++
          pySetRepr (envs.map EnvConfig.env) ++ " in " ++ (root ++ "/infra.yaml") ++
          ". They must have the same environments.") := by
      unfold checkTfvarsSection
      dsimp only
      rw [if_neg heq]
    have hload : loadInfraConfig fs root raw =
        ([], .error ("tfvars keys " ++ pySetRepr (m.map Prod.fst) ++ " do not match envs keys " ++
          pySetRepr (envs.map EnvConfig.env) ++ " in " ++ (root ++ "/infra.yaml") ++
          ". They must have the same environments.")) := by
      unfold loadInfraConfig
      rw [henv]
      dsimp only
      rw [hbuck]
      dsimp only
      rw [hbe]
      dsimp only
      rw [hbb]
      dsimp only
      rw [ht, hcheck]
    refine ⟨?_, fun _ => ⟨_, by rw [hload], ?_, ?_⟩⟩
    · intro cfg hcfg
      rw [hload] at hcfg
      cases hcfg
    · intro n hn
      exact strContains_appR _ (strContains_appR _ (strContains_appR _ (strContains_appR _
        (strContains_appR _ (strContains_appL _ (pySetRepr_contains hn))))))
    · intro n hn
      exact strContains_appR _ (strContains_appR _ (strContains_appR _
        (strContains_appL _ (pySetRepr_contains hn))))

/-- The descriptor of the spec's Scenario 6: tfvars names `staging`, envs
names `dev`. -/
def rawScenario6 : RawConfig where
  envs := some [("dev", ⟨some "GCP", none, none, some "infra/dev"⟩)]
  backend_buckets := some []
  tfvars := some [("staging", [])]

/-- An empty filesystem view. -/
def fsEmpty : Fs where
  dirExists := fun _ => false
  variablesTf := fun _ => none

/-- Witness for C3 at the spec's Scenario 6. -/
theorem c3_tfvars_env_set_equality_witness :
    ∃ e, (loadInfraConfig fsEmpty "/r" rawScenario6).2 = .error e ∧
      (∀ n ∈ ["staging"], strContains e (pyQuote n)) ∧
      (∀ n ∈ ["dev"], strContains e (pyQuote n)) :=
  (c3_tfvars_env_set_equality fsEmpty "/r" rawScenario6 _ _ _ rfl rfl rfl
    [⟨"dev", "GCP", none, none, "infra/dev"⟩] [] rfl rfl).2 (by decide)

/-! ### Claim C6 -/

/-- Counterexample to claim C6: loading `rawTwoEnv` aborts with a validation
error on the second variable set, yet the first variable set's file has
already been written as a side effect of the failed load. -/
theorem c6_counterexample :
    (loadInfraConfig fsTwoEnv "/r" rawTwoEnv).2.isOk = false ∧
    (loadInfraConfig fsTwoEnv "/r" rawTwoEnv).1 =
      [("/r/infra/dev/dev.tfvars", "region = \"us-central1\"\n")] :=
  ⟨rfl, rfl⟩

/-- Claim C6 amended: the loading loop stops at the first error — on success
every variable set's file is written, and on failure the files written are
exactly those of the variable sets preceding the first failing one (which do
remain written). -/
theorem c6_first_error_aborts (fs : Fs) (root : String) (cfg : InfraConfig)
    (tvs : List TfVars) :
    ((processTfvars fs root cfg tvs).2 = .ok () →
      List.Forall₂ (fun tv w => processOne fs root cfg tv = .ok w) tvs
        (processTfvars fs root cfg tvs).1) ∧
    (∀ e, (processTfvars fs root cfg tvs).2 = .error e →
      ∃ k, ∃ hk : k < tvs.length,
        processOne fs root cfg (tvs.get ⟨k, hk⟩) = .error e ∧
        List.Forall₂ (fun tv w => processOne fs root cfg tv = .ok w) (tvs.take k)
          (processTfvars fs root cfg tvs).1) := by
  induction tvs with
  | nil =>
    refine ⟨fun _ => List.Forall₂.nil, fun e he => ?_⟩
    cases he
  | cons tv rest ih =>
    cases hone : processOne fs root cfg tv with
    | error e0 =>
      refine ⟨fun hok => ?_, fun e he => ?_⟩
      · rw [show processTfvars fs root cfg (tv :: rest) = ([], .error e0) from by
          simp only [processTfvars]; rw [hone]] at hok
        cases hok
      · rw [show processTfvars fs root cfg (tv :: rest) = ([], .error e0) from by
          simp only [processTfvars]; rw [hone]] at he ⊢
        injection he with he'
        subst he'
        exact ⟨0, by simp, hone, List.Forall₂.nil⟩
    | ok w =>
      have hstep : processTfvars fs root cfg (tv :: rest) =
          (w :: (processTfvars fs root cfg rest).1, (processTfvars fs root cfg rest).2) := by
        simp only [processTfvars]
        rw [hone]
      refine ⟨fun hok => ?_, fun e he => ?_⟩
      · rw [hstep] at hok ⊢
        exact List.Forall₂.cons hone (ih.1 hok)
      · rw [hstep] at he ⊢
        obtain ⟨k, hk, herr, hpre⟩ := ih.2 e he
        exact ⟨k + 1, by simpa using Nat.succ_lt_succ hk,
          herr, List.Forall₂.cons hone hpre⟩

/-- The configuration built from `rawTwoEnv` (used by the C6 witness). -/
def cfgTwoEnv : InfraConfig where
  envs := [⟨"dev", "GCP", none, some "proj", "infra/dev"⟩,
           ⟨"prod", "AWS", some "prof", none, "infra/prod"⟩]
  backend_buckets := [⟨"dev", "GCP", "dev-bucket", none⟩,
                      ⟨"prod", "AWS", "prod-bucket", some "us-east-1"⟩]
  tfvars := [⟨"dev", [("region", .scalar "us-central1")]⟩, ⟨"prod", []⟩]
  project_root := "/r"

/-- Witness for C6: at the concrete two-environment configuration the loop
fails on the second variable set after writing the first one's file. -/
theorem c6_first_error_aborts_witness :
    ∃ k, ∃ hk : k < cfgTwoEnv.tfvars.length,
      processOne fsTwoEnv "/r" cfgTwoEnv (cfgTwoEnv.tfvars.get ⟨k, hk⟩) =
        .error "tfvars in infra.yaml do not match /r/infra/prod/variables.tf:\n  env \x27prod\x27: missing required variables: [\x27region\x27]" ∧
      List.Forall₂ (fun tv w => processOne fsTwoEnv "/r" cfgTwoEnv tv = .ok w)
        (cfgTwoEnv.tfvars.take k) (processTfvars fsTwoEnv "/r" cfgTwoEnv cfgTwoEnv.tfvars).1 :=
  (c6_first_error_aborts fsTwoEnv "/r" cfgTwoEnv cfgTwoEnv.tfvars).2 _ rfl

/-! ### Claim C9 -/

theorem splitLinesData_append {a : List Char} (ha : '\n' ∉ a) (t : List Char) :
    splitLinesData (a ++ '\n' :: t) = a :: splitLinesData t := by
  induction a with
  | nil => simp [splitLinesData]
  | cons c a' ih =>
    have hc : ¬ c = '\n' := fun h => ha (h ▸ List.mem_cons_self c a')
    have ha' : '\n' ∉ a' := fun h => ha (List.mem_cons_of_mem c h)
    show splitLinesData (c :: (a' ++ '\n' :: t)) = _
    rw [splitLinesData, if_neg hc, ih ha']

theorem splitAtSep_boundary {k : List Char} (hk : '=' ∉ k) (rest : List Char) :
    splitAtSep (k ++ ' ' :: '=' :: ' ' :: rest) = some (k, rest) := by
  induction k with
  | nil => simp [splitAtSep]
  | cons c k' ih =>
    have hk' : '=' ∉ k' := fun h => hk (List.mem_cons_of_mem c h)
    have hcond : ¬ (c = ' ' && (k' ++ ' ' :: '=' :: ' ' :: rest).take 2 = ['=', ' ']) = true := by
      cases k' with
      | nil => simp
      | cons d k'' =>
        have hd : ¬ d = '=' := fun h => hk (h ▸ List.mem_cons_of_mem c (List.mem_cons_self d k''))
        simp [hd]
    show splitAtSep (c :: (k' ++ ' ' :: '=' :: ' ' :: rest)) = _
    rw [splitAtSep, if_neg hcond, ih hk']
    rfl

theorem stripQuotesData_wrap (v : List Char) :
    stripQuotesData ('"' :: (v ++ ['"'])) = some v := by
  rw [stripQuotesData, if_pos (List.getLast?_concat v)]
  rw [List.dropLast_concat]

theorem reparseLineData_generated (k v : String) (hk : '=' ∉ k.data) :
    reparseLineData ((k ++ " = " ++ ("\"" ++ v ++ "\"")).data) = some (k, v) := by
  have hdata : (k ++ " = " ++ ("\"" ++ v ++ "\"")).data =
      k.data ++ ' ' :: '=' :: ' ' :: ('"' :: (v.data ++ ['"'])) := by
    simp [String.data_append]
  rw [hdata]
  unfold reparseLineData
  rw [splitAtSep_boundary hk]
  dsimp only
  rw [stripQuotesData_wrap]

theorem splitLinesData_strJoin (ls : List String) (hne : ls ≠ [])
    (h : ∀ l ∈ ls, '\n' ∉ l.data) :
    splitLinesData ((strJoin "\n" ls ++ "\n").data) = ls.map String.data ++ [[]] := by
  induction ls with
  | nil => cases hne rfl
  | cons l rest ih =>
    have hl : '\n' ∉ l.data := h l (List.mem_cons_self l rest)
    cases rest with
    | nil =>
      show splitLinesData ((l ++ "\n").data) = _
      rw [show (l ++ "\n").data = l.data ++ '\n' :: [] from by simp [String.data_append]]
      rw [splitLinesData_append hl]
      rfl
    | cons l2 rest' =>
      have hrest : ∀ x ∈ l2 :: rest', '\n' ∉ x.data :=
        fun x hx => h x (List.mem_cons_of_mem l hx)
      show splitLinesData ((l ++ "\n" ++ strJoin "\n" (l2 :: rest') ++ "\n").data) = _
      rw [show (l ++ "\n" ++ strJoin "\n" (l2 :: rest') ++ "\n").data =
          l.data ++ '\n' :: ((strJoin "\n" (l2 :: rest') ++ "\n").data) from by
        simp [String.data_append]]
      rw [splitLinesData_append hl, ih (by simp) hrest]
      rfl

theorem mapM_reparse_generated (prs : List (String × String))
    (hk : ∀ p ∈ prs, '=' ∉ (p.1 : String).data) :
    ((prs.map (fun p => (p.1 ++ " = " ++ ("\"" ++ p.2 ++ "\"")).data)).mapM
      reparseLineData) = some prs := by
  induction prs with
  | nil => rfl
  | cons p rest ih =>
    have hp : '=' ∉ (p.1 : String).data := hk p (List.mem_cons_self p rest)
    have hrest : ∀ q ∈ rest, '=' ∉ (q.1 : String).data :=
      fun q hq => hk q (List.mem_cons_of_mem p hq)
    show ((p.1 ++ " = " ++ ("\"" ++ p.2 ++ "\"")).data ::
        rest.map (fun q => (q.1 ++ " = " ++ ("\"" ++ q.2 ++ "\"")).data)).mapM
        reparseLineData = some (p :: rest)
    rw [List.mapM_cons, reparseLineData_generated p.1 p.2 hp, ih hrest]
    rfl

/-- Counterexample to claim C9: a variable set whose single value is the
scalar string `"a\nb"` renders to a file that the spec's line-by-line
re-parsing cannot parse at all, so the original pairs are not reproduced. -/
theorem c9_counterexample :
    reparseContent (generateContent [("k", TfValue.scalar "a\nb")]) = none := rfl

/-- Claim C9 amended: rendering a non-empty all-scalar variable set and
re-parsing the file line by line reproduces the original key/value pairs,
provided keys contain no newline and no equals sign and scalar values contain
no newline. -/
theorem c9_scalar_roundtrip (prs : List (String × String)) (hne : prs ≠ [])
    (hk : ∀ p ∈ prs, '\n' ∉ (p.1 : String).data ∧ '=' ∉ (p.1 : String).data)
    (hv : ∀ p ∈ prs, '\n' ∉ (p.2 : String).data) :
    reparseContent (generateContent (prs.map (fun p => (p.1, TfValue.scalar p.2)))) =
      some prs := by
  have hgen : generateContent (prs.map (fun p => (p.1, TfValue.scalar p.2))) =
      strJoin "\n" (prs.map (fun p => p.1 ++ " = " ++ ("\"" ++ p.2 ++ "\""))) ++ "\n" := by
    unfold generateContent
    rw [List.map_map]
    rfl
  have hlines : ∀ l ∈ prs.map (fun p => p.1 ++ " = " ++ ("\"" ++ p.2 ++ "\"")),
      '\n' ∉ l.data := by
    intro l hl
    obtain ⟨p, hp, hpl⟩ := List.mem_map.mp hl
    subst hpl
    intro hcon
    simp only [String.data_append, List.mem_append] at hcon
    rcases hcon with (h1 | h2) | (h4 | h5) | h6
    · exact (hk p hp).1 h1
    · exact absurd h2 (by decide)
    · exact absurd h4 (by decide)
    · exact hv p hp h5
    · exact absurd h6 (by decide)
  unfold reparseContent
  rw [hgen, splitLinesData_strJoin _ (by simpa using hne) hlines,
    List.dropLast_concat, List.map_map]
  exact mapM_reparse_generated prs (fun p hp => (hk p hp).2)

/-- Witness for C9 at a concrete two-variable scalar set. -/
theorem c9_scalar_roundtrip_witness :
    reparseContent (generateContent ([("region", "us-central1"), ("proj", "x")].map
      (fun p => (p.1, TfValue.scalar p.2)))) =
      some [("region", "us-central1"), ("proj", "x")] :=
  c9_scalar_roundtrip [("region", "us-central1"), ("proj", "x")] (by decide)
    (by decide) (by decide)
